import Mathlib

/-!
Verification of the resumable-pipeline engine of the `synda` repository
against its specification.  The Python sources under `src/synda` are
shallowly embedded below: SQL queries become list operations over an
explicit store, the ORM entities become structures, and the orchestrator
becomes pure functions over explicit state.  Modules of the repository
not shipped under `src/` (`synda.model.run`, `synda.model.step`) are
modelled from the specification and marked as such in doc comments.
-/

namespace Synda

/-! ## Data model: `src/synda/model/node.py` -/

/-- The `Node` entity of `src/synda/model/node.py`.  Fields `ancestors`
and `node_metadata` (opaque JSON payloads, untouched by every claim) are
elided.  Note: the source file declares no `status` column. -/
structure Node where
  id : Int
  parent_node_id : Option Int := none
  ablated : Bool := false
  value : String
deriving DecidableEq, Repr

/-- The `StepNode` link entity (`synda.model.step_node`), as used by the
queries in `src/synda/model/node.py`: a typed many-to-many link between
nodes and steps with a `relationship_type` discriminator. -/
structure StepNode where
  node_id : Int
  step_id : Int
  relationship_type : String
deriving DecidableEq, Repr

/-- Modelled from the spec: the `Step` entity (`synda.model.step` is not
under `src/`); only its identifier is consulted by the embedded code. -/
structure Step where
  id : Int
deriving DecidableEq, Repr

/-- The argument of `Node.get`: Python's `Union[int, list[int]]`. -/
inductive NodeIds where
  | single (i : Int)
  | multiple (l : List Int)
deriving DecidableEq, Repr

/-- The result of `Node.get`: Python's `Union["Node", list["Node"]]`. -/
inductive GetResult where
  | one (n : Node)
  | many (ns : List Node)
deriving DecidableEq, Repr

/-- `Node.get` from `src/synda/model/node.py`.  The SQL
`select(cls).where(cls.id.in_(node_ids))` over the session is embedded
as a filter over the stored node list; the final line of the source,
`return results[0] if single_result and results else results`, is the
final match. -/
def Node.get (session : List Node) (node_ids : NodeIds) : GetResult :=
  let pair : List Int × Bool :=
    match node_ids with
    | NodeIds.single i => ([i], true)
    | NodeIds.multiple l => (l, false)
  let results := session.filter (fun n => pair.1.contains n.id)
  match pair.2, results with
  | true, r :: _ => GetResult.one r
  | _, _ => GetResult.many results

/-- `Node.get_input_nodes_from_step` from `src/synda/model/node.py`.
The join `Node ⋈ StepNode` filtered on `step_id` and
`relationship_type = "input"` is embedded as a filter over the stored
nodes (a node is selected iff an input link to the step exists); the
second query — `select(Node.parent_node_id).where(Node.parent_node_id
.in_(input ids))` — is the `filterMap`/`filter` pair. -/
def Node.get_input_nodes_from_step (session : List Node)
    (links : List StepNode) (step : Step) : List (Node × String) :=
  let input_nodes_for_steps := session.filter (fun n =>
    links.any (fun l =>
      l.node_id == n.id && l.step_id == step.id &&
        l.relationship_type == "input"))
  let already_treated_input_nodes_ids :=
    (session.filterMap (fun n => n.parent_node_id)).filter (fun pid =>
      (input_nodes_for_steps.map (fun n => n.id)).contains pid)
  input_nodes_for_steps.map (fun node =>
    if already_treated_input_nodes_ids.contains node.id then
      (node, "treated")
    else
      (node, "not_treated"))

/-! ## Module-level facts used by the import of `NodeStatus` -/

/-- The column attributes declared on `Node` in `src/synda/model/node.py`. -/
def nodeFields : List String :=
  ["id", "parent_node_id", "ablated", "value", "ancestors", "node_metadata"]

/-- The top-level names defined by the module `src/synda/model/node.py`
(the only class it defines is `Node`). -/
def nodeModuleDefs : List String := ["Node"]

/-- The names imported from `synda.model.node` by
`src/synda/pipeline/async_pipeline.py` line 9:
`from synda.model.node import Node, NodeStatus`. -/
def asyncPipelineNodeImports : List String := ["Node", "NodeStatus"]

/-! ## Pipeline orchestrator: `src/synda/pipeline/async_pipeline.py`

The pipeline reads a `status` attribute on nodes and imports a
`NodeStatus` enumeration from `synda.model.node`, which does not define
either; the enumeration and the status-carrying node record are
therefore modelled from the spec. -/

/-- Modelled from the spec: node status enumeration
{PENDING, PROCESSED, ERRORED} (spec §3).  Imported by the pipeline as
`NodeStatus` but absent from `src/synda/model/node.py`. -/
inductive NodeStatus where
  | PENDING
  | PROCESSED
  | ERRORED
deriving DecidableEq, Repr

/-- Modelled from the spec: the node record as seen by the orchestrator,
carrying the `status` attribute that `_prepare_nodes` reads (spec §3);
the payload is kept as an opaque `value`. -/
structure PNode where
  id : Int
  status : NodeStatus
  value : String
deriving DecidableEq, Repr

/-- Modelled from the spec: run status enumeration
{RUNNING, FINISHED, ERRORED, STOPPED} of `synda.model.run` (spec §3),
which is not under `src/`. -/
inductive RunStatus where
  | RUNNING
  | FINISHED
  | ERRORED
  | STOPPED
deriving DecidableEq, Repr

/-- A persisted run: identifier and status. -/
structure RunState where
  id : Int
  status : RunStatus
deriving DecidableEq, Repr

/-- The signature of `executor.execute_and_update_step` /
`execute_and_update_step_async`: arguments are the step, the nodes to
process, the already-processed pass-through nodes and the
`is_first_step` flag; the result is the updated node list.  The
transformation logic is an external collaborator (spec §1, §4.3), so the
orchestrator is parameterised over it. -/
def Executor : Type := Step → List PNode → List PNode → Bool → List PNode

/-- One iteration of the `for node in input_nodes` loop of
`AsyncPipeline._prepare_nodes`: append the node to `pending_nodes` when
PENDING, to `processed_nodes` when PROCESSED, and skip it otherwise. -/
def prepare_nodes_iter (acc : List PNode × List PNode) (node : PNode) :
    List PNode × List PNode :=
  if node.status = NodeStatus.PENDING then
    (acc.1 ++ [node], acc.2)
  else if node.status = NodeStatus.PROCESSED then
    (acc.1, acc.2 ++ [node])
  else
    acc

/-- `AsyncPipeline._prepare_nodes` proper: early return when not the
first step, otherwise the fold of `prepare_nodes_iter` starting from
the two empty lists. -/
def prepare_nodes (input_nodes : List PNode) (is_first_step : Bool) :
    List PNode × List PNode :=
  if is_first_step = false then
    (input_nodes, [])
  else
    input_nodes.foldl prepare_nodes_iter ([], [])

/-- The loop body of `AsyncPipeline._execute_remaining_steps`: iterate
over the remaining steps, preparing nodes with the
`is_first_remaining_step` flag, which is `true` for the first iteration
only and `false` afterwards; each step's result becomes the next
iteration's `input_nodes`. -/
def exec_remaining_loop (executor : Executor) (input_nodes : List PNode)
    (remaining_steps : List Step) (is_first_remaining_step : Bool) :
    List PNode :=
  match remaining_steps with
  | [] => input_nodes
  | current_step :: rest =>
      let prepared := prepare_nodes input_nodes is_first_remaining_step
      exec_remaining_loop executor
        (executor current_step prepared.1 prepared.2 is_first_remaining_step)
        rest false

/-- `AsyncPipeline._execute_remaining_steps`: the loop starts with
`is_first_remaining_step = True` and returns the final `input_nodes`. -/
def execute_remaining_steps (executor : Executor)
    (input_nodes : List PNode) (remaining_steps : List Step) : List PNode :=
  exec_remaining_loop executor input_nodes remaining_steps true

/-- The observable effect of `AsyncPipeline._finalize_run`: the node set
handed to `self.output_saver.save` and the status written to the run by
`self.run.update(self.session, RunStatus.FINISHED)` (the `Run.update`
status assignment is modelled from spec §4.4). -/
structure FinalizeResult where
  saved : List PNode
  run_status : RunStatus
deriving DecidableEq, Repr

/-- `AsyncPipeline._finalize_run`: save the given nodes, mark the run
FINISHED. -/
def finalize_run (input_nodes : List PNode) : FinalizeResult :=
  { saved := input_nodes, run_status := RunStatus.FINISHED }

/-- `AsyncPipeline._restart_from_step`, given the tuple reconstructed by
`Run.restart_from_step` (a collaborator not under `src/`, so its output
`input_nodes`/`remaining_steps` are taken as arguments).  As in the
source, the value returned by `_execute_remaining_steps` is bound to no
name and `_finalize_run` receives the original `input_nodes`. -/
def restart_from_step (executor : Executor) (input_nodes : List PNode)
    (remaining_steps : List Step) : FinalizeResult :=
  let _ := execute_remaining_steps executor input_nodes remaining_steps
  finalize_run input_nodes

/-- The step loop of `AsyncPipeline.execute`: each step's executor is
invoked as `execute_and_update_step(input_nodes, [], False)` and its
result rebinds `input_nodes` for the next step. -/
def execute_loop (executor : Executor) (input_nodes : List PNode) :
    List Step → List PNode
  | [] => input_nodes
  | step :: rest =>
      execute_loop executor (executor step input_nodes [] false) rest

/-- `AsyncPipeline.execute` on the happy path: load the input nodes (the
loader is external, so the loaded set is an argument), run every step of
the run in stored order, then `_finalize_run` with the final node set. -/
def execute (executor : Executor) (loaded : List PNode)
    (steps : List Step) : FinalizeResult :=
  finalize_run (execute_loop executor loaded steps)

/-! ## Error and interruption decorators -/

/-- The persisted state visible to the decorators: the ledger of runs
and the pipeline's own `self.run` reference (`none` when the pipeline
was constructed without a config, per `AsyncPipeline.__init__`:
`self.run = Run.create_with_steps(...) if config else None`). -/
structure PipelineState where
  runs : List RunState
  self_run : Option Int
deriving DecidableEq, Repr

/-- Modelled from the spec: `Run.update(session, status)` of
`synda.model.run` (not under `src/`) — the transactional status
transition of spec §4.4, embedded as a status assignment on the run
with the given id. -/
def update_run (runs : List RunState) (rid : Int) (status : RunStatus) :
    List RunState :=
  runs.map (fun r => if r.id = rid then { r with status := status } else r)

/-- The outcome of one orchestrator entry point: a normal return or a
raised exception (carrying its message), each with the persisted state
at that moment. -/
inductive Outcome (α : Type) where
  | ok (value : α) (st : PipelineState)
  | error (msg : String) (st : PipelineState)
deriving DecidableEq, Repr

/-- `AsyncPipeline.handle_run_errors`: run the wrapped body; on an
exception, update `self.run` to ERRORED when it is set, then re-raise
the same exception. -/
def handle_run_errors (func : PipelineState → Outcome α)
    (st : PipelineState) : Outcome α :=
  match func st with
  | Outcome.ok v st' => Outcome.ok v st'
  | Outcome.error e st' =>
      match st'.self_run with
      | some rid =>
          Outcome.error e
            { st' with runs := update_run st'.runs rid RunStatus.ERRORED }
      | none => Outcome.error e st'

/-- What the `KeyboardInterrupt` branch of
`AsyncPipeline.handle_stop_option` does once a run exists and the user
has replied to the confirmation prompt: either the run is updated to
STOPPED and the process exits without finalizing, or `self.resume` is
invoked on the run's id. -/
inductive StopDecision where
  | stopped (run_id : Int) (status_written : RunStatus)
  | resumed (run_id : Int)
deriving DecidableEq, Repr

/-- Python's `str.strip()` whitespace test, restricted to the ASCII
whitespace characters (sufficient for every reply considered here). -/
def is_py_space (c : Char) : Bool :=
  c = ' ' ∨ c = '\t' ∨ c = '\n' ∨ c = '\r'

/-- Python's `ch.lower()` on one character, for the ASCII range
(sufficient for the `"y"` comparison of the confirmation gate). -/
def lower_char (c : Char) : Char :=
  if 'A' ≤ c ∧ c ≤ 'Z' then Char.ofNat (c.toNat + 32) else c

/-- Python's `reply.strip().lower()`: drop leading and trailing
whitespace, then lowercase, embedded structurally over the character
list so that it evaluates on concrete replies. -/
def py_strip_lower (reply : String) : String :=
  String.mk
    ((((reply.data.dropWhile is_py_space).reverse.dropWhile
      is_py_space).reverse).map lower_char)

/-- The confirmation gate of `AsyncPipeline.handle_stop_option`:
`user_input = CONSOLE.input(...).strip().lower()`; on `"y"` the run is
updated to STOPPED and the process exits (no finalization); on anything
else `self.resume(run_id=self.run.id)` is awaited.  Exceptions other
than `KeyboardInterrupt` pass through this decorator untouched. -/
def handle_stop_option (run : RunState) (reply : String) : StopDecision :=
  let user_input := py_strip_lower reply
  if user_input = "y" then
    StopDecision.stopped run.id RunStatus.STOPPED
  else
    StopDecision.resumed run.id

/-! ## Retry protocol -/

/-- Modelled from the spec: step status enumeration
{PENDING, RUNNING, PROCESSED, ERRORED} of `synda.model.step` (spec §3),
which is not under `src/`. -/
inductive StepStatus where
  | PENDING
  | RUNNING
  | PROCESSED
  | ERRORED
deriving DecidableEq, Repr

/-- A persisted step of the ledger, as consulted by the retry
protocol. -/
structure LedgerStep where
  id : Int
  run_id : Int
  status : StepStatus
deriving DecidableEq, Repr

/-- Modelled from the spec: `Step.get_last_failed` of
`synda.model.step` (not under `src/`) — "finds the most recently
errored step across all runs ... Fails with NotFound if no errored step
exists" (spec §4.4); recency is modelled as the last errored step in
ledger order. -/
def get_last_failed (ledger : List LedgerStep) : Option LedgerStep :=
  (ledger.filter (fun s => s.status = StepStatus.ERRORED)).getLast?

/-- The body of `AsyncPipeline.retry`: look up the last failed step and
raise `Exception("Can't find any failed step.")` when there is none;
otherwise restart from it (`_restart_from_step` is abstracted as the
`restart` argument, since this claim concerns only the validation
branch). -/
def retry_body (ledger : List LedgerStep)
    (restart : LedgerStep → PipelineState → Outcome Unit)
    (st : PipelineState) : Outcome Unit :=
  match get_last_failed ledger with
  | none => Outcome.error "Can't find any failed step." st
  | some s => restart s st

/-- `AsyncPipeline.retry` as decorated in the source:
`handle_run_errors` wraps `handle_stop_option` wraps the body, and the
`handle_stop_option` layer re-raises every exception that is not a
`KeyboardInterrupt` unchanged, so on the exception path the composition
reduces to `handle_run_errors` around the body. -/
def retry (ledger : List LedgerStep)
    (restart : LedgerStep → PipelineState → Outcome Unit) :
    PipelineState → Outcome Unit :=
  handle_run_errors (retry_body ledger restart)

/-! ## Helper lemmas -/

theorem prepare_nodes_iter_foldl (l : List PNode) (a b : List PNode) :
    l.foldl prepare_nodes_iter (a, b) =
      (a ++ l.filter (fun n => n.status = NodeStatus.PENDING),
       b ++ l.filter (fun n => n.status = NodeStatus.PROCESSED)) := by
  induction l generalizing a b with
  | nil => simp
  | cons x xs ih =>
      cases hx : x.status <;>
        simp [List.foldl_cons, prepare_nodes_iter, hx, List.filter_cons, ih]

/-- On the first remaining step, `_prepare_nodes` partitions the input
by status: PENDING nodes to process, PROCESSED nodes to pass through,
both in input order. -/
theorem prepare_nodes_first_eq (input_nodes : List PNode) :
    prepare_nodes input_nodes true =
      (input_nodes.filter (fun n => n.status = NodeStatus.PENDING),
       input_nodes.filter (fun n => n.status = NodeStatus.PROCESSED)) := by
  simpa [prepare_nodes] using prepare_nodes_iter_foldl input_nodes [] []

theorem execute_loop_eq_foldl (executor : Executor) (loaded : List PNode)
    (steps : List Step) :
    execute_loop executor loaded steps =
      steps.foldl (fun input_nodes step => executor step input_nodes [] false)
        loaded := by
  induction steps generalizing loaded with
  | nil => rfl
  | cons s rest ih => simp [execute_loop, List.foldl_cons, ih]

/-! ## Claim theorems -/

/-- **C6.** During the restart protocol, for the first remaining step
only, the reconstructed input nodes are partitioned by status into a
to-process set (PENDING) and a pass-through set (PROCESSED); for every
subsequent remaining step (`is_first_remaining_step = false`, as the
loop keeps it after the first iteration) the entire input node list is
the to-process set and the pass-through set is empty. -/
theorem restart_partitions_only_first_step (executor : Executor)
    (input_nodes : List PNode) (s : Step) (rest : List Step) :
    prepare_nodes input_nodes true =
      (input_nodes.filter (fun n => n.status = NodeStatus.PENDING),
       input_nodes.filter (fun n => n.status = NodeStatus.PROCESSED)) ∧
    prepare_nodes input_nodes false = (input_nodes, []) ∧
    execute_remaining_steps executor input_nodes (s :: rest) =
      exec_remaining_loop executor
        (executor s
          (input_nodes.filter (fun n => n.status = NodeStatus.PENDING))
          (input_nodes.filter (fun n => n.status = NodeStatus.PROCESSED))
          true)
        rest false ∧
    exec_remaining_loop executor input_nodes (s :: rest) false =
      exec_remaining_loop executor (executor s input_nodes [] false)
        rest false := by
  refine ⟨prepare_nodes_first_eq input_nodes, rfl, ?_, rfl⟩
  simp [execute_remaining_steps, exec_remaining_loop,
    prepare_nodes_first_eq]

/-- **C10**, counterexample: an input node in status ERRORED is placed
in neither list of the first-step partition, yet it is *not* excluded
from the finalized output — `_restart_from_step` finalizes with the
reconstructed `input_nodes`, so the ERRORED node reaches the saved
node set. -/
theorem errored_node_in_finalized_output :
    prepare_nodes [{ id := 1, status := NodeStatus.ERRORED, value := "x" }]
        true = ([], []) ∧
    ({ id := 1, status := NodeStatus.ERRORED, value := "x" } : PNode) ∈
      (restart_from_step (fun _ ntp pn _ => ntp ++ pn)
        [{ id := 1, status := NodeStatus.ERRORED, value := "x" }]
        [⟨1⟩]).saved := by
  decide

/-- **C10** (amended): in the first-step partition, a node whose status
is neither PENDING nor PROCESSED is placed in neither the to-process
set nor the pass-through set, and is therefore excluded from the first
remaining step's executor invocation; however, because finalization
saves the reconstructed input node set, the node still appears in the
finalized output. -/
theorem errored_node_skipped_but_saved (n : PNode)
    (input_nodes : List PNode) (executor : Executor)
    (remaining_steps : List Step)
    (herr : n.status = NodeStatus.ERRORED) :
    n ∉ (prepare_nodes input_nodes true).1 ∧
    n ∉ (prepare_nodes input_nodes true).2 ∧
    (n ∈ input_nodes →
      n ∈ (restart_from_step executor input_nodes remaining_steps).saved) := by
  rw [prepare_nodes_first_eq]
  refine ⟨fun hmem => ?_, fun hmem => ?_, fun hmem => hmem⟩
  · have := (List.mem_filter.mp hmem).2
    simp [herr] at this
  · have := (List.mem_filter.mp hmem).2
    simp [herr] at this

/-- Witness for `errored_node_skipped_but_saved` at a concrete ERRORED
node. -/
theorem errored_node_skipped_but_saved_witness :
    ({ id := 1, status := NodeStatus.ERRORED, value := "x" } : PNode).status
        = NodeStatus.ERRORED ∧
    (({ id := 1, status := NodeStatus.ERRORED, value := "x" } : PNode) ∉
        (prepare_nodes
          [{ id := 1, status := NodeStatus.ERRORED, value := "x" }] true).1 ∧
      ({ id := 1, status := NodeStatus.ERRORED, value := "x" } : PNode) ∉
        (prepare_nodes
          [{ id := 1, status := NodeStatus.ERRORED, value := "x" }] true).2 ∧
      (({ id := 1, status := NodeStatus.ERRORED, value := "x" } : PNode) ∈
          [({ id := 1, status := NodeStatus.ERRORED, value := "x" } : PNode)] →
        ({ id := 1, status := NodeStatus.ERRORED, value := "x" } : PNode) ∈
          (restart_from_step (fun _ ntp pn _ => ntp ++ pn)
            [{ id := 1, status := NodeStatus.ERRORED, value := "x" }]
            [⟨1⟩]).saved)) :=
  ⟨rfl, errored_node_skipped_but_saved _ _ _ _ rfl⟩

/-- **C4**, evaluation at the failing input: the pipeline module imports
`NodeStatus` from `synda.model.node`, but that module defines no
`NodeStatus` and its `Node` class declares no `status` column, so the
node model does not provide the status enumeration the claim (and the
orchestrator's own import) requires. -/
theorem node_status_absent_from_model :
    "NodeStatus" ∈ asyncPipelineNodeImports ∧
    "NodeStatus" ∉ nodeModuleDefs ∧
    "status" ∉ nodeFields := by
  decide

/-- A concrete executor satisfying the spec §4.3 contract: it transforms
every node to process into a PROCESSED node with an annotated value and
passes already-processed nodes through. -/
def bump_executor : Executor := fun _ ntp pn _ =>
  (ntp.map fun n =>
    { n with status := NodeStatus.PROCESSED, value := n.value ++ "!" }) ++ pn

/-- **C1**, evaluation at the failing input: resuming a run whose single
remaining step transforms its PENDING input saves the reconstructed
input node set — `_restart_from_step` discards the return value of
`_execute_remaining_steps` — while the uninterrupted execution of the
same configuration saves the step's output, so the two final saved
node sets differ. -/
theorem restart_saves_stale_nodes :
    (restart_from_step bump_executor
        [{ id := 1, status := NodeStatus.PENDING, value := "a" }]
        [⟨1⟩]).saved =
      [{ id := 1, status := NodeStatus.PENDING, value := "a" }] ∧
    execute_remaining_steps bump_executor
        [{ id := 1, status := NodeStatus.PENDING, value := "a" }] [⟨1⟩] =
      [{ id := 1, status := NodeStatus.PROCESSED, value := "a!" }] ∧
    (execute bump_executor
        [{ id := 1, status := NodeStatus.PENDING, value := "a" }]
        [⟨1⟩]).saved =
      [{ id := 1, status := NodeStatus.PROCESSED, value := "a!" }] ∧
    ([{ id := 1, status := NodeStatus.PENDING, value := "a" }] : List PNode)
      ≠ [{ id := 1, status := NodeStatus.PROCESSED, value := "a!" }] := by
  decide

/-- **C7.** On a run whose steps all complete, `execute` processes the
steps in stored order, feeding each step's output node set as the next
step's input (the saved set is the left fold of the executor over the
steps), hands the final node set to the output saver, and leaves the
run with status FINISHED; appending one more step makes the saved set
that step's output on the previous fold. -/
theorem execute_runs_steps_in_order (executor : Executor)
    (loaded : List PNode) (steps : List Step) :
    execute executor loaded steps =
      { saved := steps.foldl
          (fun input_nodes step => executor step input_nodes [] false) loaded,
        run_status := RunStatus.FINISHED } ∧
    ∀ s : Step,
      (execute executor loaded (steps ++ [s])).saved =
        executor s (execute executor loaded steps).saved [] false := by
  constructor
  · simp [execute, finalize_run, execute_loop_eq_foldl]
  · intro s
    simp [execute, finalize_run, execute_loop_eq_foldl, List.foldl_append]

/-- **C8.** When the wrapped body of an orchestrator entry point
(execute, retry or resume — all three are decorated with
`handle_run_errors`) raises an exception while `self.run` is set, the
run's status is updated to ERRORED and the *same* exception is
re-raised to the caller: nothing is swallowed. -/
theorem exception_marks_run_errored (func : PipelineState → Outcome Unit)
    (st st' : PipelineState) (e : String) (rid : Int)
    (hbody : func st = Outcome.error e st')
    (hrun : st'.self_run = some rid) :
    handle_run_errors func st =
      Outcome.error e
        { st' with runs := update_run st'.runs rid RunStatus.ERRORED } ∧
    ∀ r ∈ update_run st'.runs rid RunStatus.ERRORED,
      r.id = rid → r.status = RunStatus.ERRORED := by
  constructor
  · simp [handle_run_errors, hbody, hrun]
  · intro r hr hid
    rcases List.mem_map.mp hr with ⟨r0, _, heq⟩
    by_cases h : r0.id = rid
    · rw [← heq]; simp [update_run, h]
    · rw [← heq] at hid
      simp [h] at hid

/-- Witness for `exception_marks_run_errored`: a body raising `"boom"`
while the pipeline's run (id 7, RUNNING) exists. -/
theorem exception_marks_run_errored_witness :
    handle_run_errors (fun s => (Outcome.error "boom" s : Outcome Unit))
        { runs := [⟨7, RunStatus.RUNNING⟩], self_run := some 7 } =
      Outcome.error "boom"
        { runs := update_run [⟨7, RunStatus.RUNNING⟩] 7 RunStatus.ERRORED,
          self_run := some 7 } ∧
    ∀ r ∈ update_run [⟨7, RunStatus.RUNNING⟩] 7 RunStatus.ERRORED,
      r.id = 7 → r.status = RunStatus.ERRORED :=
  exception_marks_run_errored
    (fun s => (Outcome.error "boom" s : Outcome Unit))
    { runs := [⟨7, RunStatus.RUNNING⟩], self_run := some 7 }
    { runs := [⟨7, RunStatus.RUNNING⟩], self_run := some 7 }
    "boom" 7 rfl rfl

/-- **C9.** At the interruption confirmation gate, the run transitions
to STOPPED and the process exits without finalizing exactly when the
stripped, lowercased reply equals `"y"`; on every other reply,
`resume` is invoked on the same run id. -/
theorem stop_confirmation_gate (run : RunState) (reply : String) :
    (handle_stop_option run reply =
        StopDecision.stopped run.id RunStatus.STOPPED
      ↔ py_strip_lower reply = "y") ∧
    (py_strip_lower reply ≠ "y" →
      handle_stop_option run reply = StopDecision.resumed run.id) := by
  unfold handle_stop_option
  by_cases h : py_strip_lower reply = "y" <;> simp [h]

/-- Witness for `stop_confirmation_gate`: the reply `" N "` normalizes
to `"n"`, so the run (id 5) is resumed rather than stopped. -/
theorem stop_confirmation_gate_witness :
    py_strip_lower " N " ≠ "y" ∧
    handle_stop_option ⟨5, RunStatus.RUNNING⟩ " N " =
      StopDecision.resumed 5 :=
  ⟨by decide,
    (stop_confirmation_gate ⟨5, RunStatus.RUNNING⟩ " N ").2 (by decide)⟩

/-- **C2**, counterexample: a pipeline constructed with a config (so
`self.run` is set, here run 7 in status RUNNING) whose `retry` call
finds no errored step does *not* leave every run unchanged — the
`handle_run_errors` decorator transitions run 7 to ERRORED before
re-raising the validation exception. -/
theorem retry_validation_marks_run_errored :
    retry [⟨1, 7, StepStatus.PROCESSED⟩] (fun _ s => Outcome.ok () s)
        { runs := [⟨7, RunStatus.RUNNING⟩], self_run := some 7 } =
      Outcome.error "Can't find any failed step."
        { runs := [⟨7, RunStatus.ERRORED⟩], self_run := some 7 } := by
  decide

/-- **C2** (amended): when no step in any run is ERRORED, `retry`
reports the absence immediately (`Exception("Can't find any failed
step.")`); all run statuses are left unchanged provided the pipeline
carries no run of its own (`self.run is None`, the case when it was
constructed without a config); when the pipeline was constructed with a
config, the error decorator transitions the pipeline's freshly created
run — and only it — to ERRORED before re-raising. -/
theorem retry_no_failed_step (ledger : List LedgerStep)
    (restart : LedgerStep → PipelineState → Outcome Unit)
    (st : PipelineState)
    (hno : ledger.filter (fun s => s.status = StepStatus.ERRORED) = []) :
    (st.self_run = none →
      retry ledger restart st =
        Outcome.error "Can't find any failed step." st) ∧
    (∀ rid, st.self_run = some rid →
      retry ledger restart st =
        Outcome.error "Can't find any failed step."
          { st with runs := update_run st.runs rid RunStatus.ERRORED }) := by
  have hlast : get_last_failed ledger = none := by
    simp [get_last_failed, hno]
  constructor
  · intro h
    simp [retry, handle_run_errors, retry_body, hlast, h]
  · intro rid h
    simp [retry, handle_run_errors, retry_body, hlast, h]

/-- Witness for `retry_no_failed_step`: a ledger whose only step is
PROCESSED and a pipeline without a run of its own. -/
theorem retry_no_failed_step_witness :
    ([⟨1, 7, StepStatus.PROCESSED⟩] : List LedgerStep).filter
        (fun s => s.status = StepStatus.ERRORED) = [] ∧
    retry [⟨1, 7, StepStatus.PROCESSED⟩] (fun _ s => Outcome.ok () s)
        { runs := [⟨7, RunStatus.RUNNING⟩], self_run := none } =
      Outcome.error "Can't find any failed step."
        { runs := [⟨7, RunStatus.RUNNING⟩], self_run := none } :=
  ⟨by decide,
    (retry_no_failed_step [⟨1, 7, StepStatus.PROCESSED⟩]
      (fun _ s => Outcome.ok () s)
      { runs := [⟨7, RunStatus.RUNNING⟩], self_run := none }
      (by decide)).1 rfl⟩

/-- **C3**, counterexample: `Node.get` called with the single identifier
1 on a store holding only node 42 does not signal absence — the source
raises nothing (`return results[0] if single_result and results else
results`), and the call returns the plural-shaped empty result
normally. -/
theorem node_get_single_absent_no_failure :
    Node.get [{ id := 42, value := "v" }] (NodeIds.single 1) =
      GetResult.many [] := by
  decide

/-- **C3** (amended): a singular request for an absent identifier
returns the empty list (a plural-shaped empty result) rather than
failing; a singular request for a present identifier returns a node;
a plural request returns exactly the stored nodes whose identifiers
are in the requested list, without failing. -/
theorem node_get_behavior (session : List Node) (i : Int) (l : List Int)
    (habsent : ∀ n ∈ session, n.id ≠ i) :
    Node.get session (NodeIds.single i) = GetResult.many [] ∧
    Node.get session (NodeIds.multiple l) =
      GetResult.many (session.filter (fun n => l.contains n.id)) ∧
    ∀ n : Node,
      n ∈ session.filter (fun n => l.contains n.id) ↔
        n ∈ session ∧ n.id ∈ l := by
  refine ⟨?_, rfl, ?_⟩
  · have hres : session.filter
        (fun n => ([i] : List Int).contains n.id) = [] := by
      rw [List.filter_eq_nil_iff]
      intro n hn
      simp [habsent n hn]
    simp only [Node.get, hres]
  · intro n
    simp [List.mem_filter]

/-- Witness for `node_get_behavior`: the store holding only node 42,
the absent singular id 1 and the plural request `[42]`. -/
theorem node_get_behavior_witness :
    (∀ n ∈ ([{ id := 42, value := "v" }] : List Node), n.id ≠ 1) ∧
    (Node.get [{ id := 42, value := "v" }] (NodeIds.single 1) =
        GetResult.many [] ∧
      Node.get [{ id := 42, value := "v" }] (NodeIds.multiple [42]) =
        GetResult.many (([{ id := 42, value := "v" }] : List Node).filter
          (fun n => ([42] : List Int).contains n.id)) ∧
      ∀ n : Node,
        n ∈ ([{ id := 42, value := "v" }] : List Node).filter
            (fun n => ([42] : List Int).contains n.id) ↔
          n ∈ ([{ id := 42, value := "v" }] : List Node) ∧
            n.id ∈ ([42] : List Int)) :=
  ⟨by decide, node_get_behavior [{ id := 42, value := "v" }] 1 [42]
    (by decide)⟩

/-- Mapping `Prod.fst` over a treated/not_treated tagging recovers the
tagged list. -/
theorem tag_map_fst (f : Node → Bool) (L : List Node) :
    (L.map (fun node => if f node then (node, "treated")
      else (node, "not_treated"))).map Prod.fst = L := by
  induction L with
  | nil => rfl
  | cons x xs ih => by_cases h : f x <;> simp [h, ih]

/-- **C5.** `get_input_nodes_from_step` returns exactly the stored
nodes linked to the step with `relationship_type = "input"`, and a
returned node is tagged `"treated"` iff some node in the store has
`parent_node_id` equal to that node's id, and `"not_treated"`
otherwise. -/
theorem input_nodes_tagging (session : List Node) (links : List StepNode)
    (step : Step) :
    (Node.get_input_nodes_from_step session links step).map Prod.fst =
      session.filter (fun n => links.any (fun l =>
        l.node_id == n.id && l.step_id == step.id &&
          l.relationship_type == "input")) ∧
    ∀ p ∈ Node.get_input_nodes_from_step session links step,
      (p.2 = "treated" ↔ ∃ m ∈ session, m.parent_node_id = some p.1.id) ∧
      (p.2 = "not_treated" ↔
        ¬ ∃ m ∈ session, m.parent_node_id = some p.1.id) := by
  constructor
  · exact tag_map_fst _ _
  · intro p hp
    simp only [Node.get_input_nodes_from_step, List.mem_map] at hp
    obtain ⟨n, hnI, hpn⟩ := hp
    have hkey : ((session.filterMap (fun n => n.parent_node_id)).filter
        (fun pid => ((session.filter (fun n =>
          links.any (fun l => l.node_id == n.id && l.step_id == step.id &&
            l.relationship_type == "input"))).map
              (fun n => n.id)).contains pid)).contains n.id = true ↔
        ∃ m ∈ session, m.parent_node_id = some n.id := by
      rw [List.elem_iff]
      constructor
      · intro h
        have h2 := List.mem_filter.mp h
        obtain ⟨m, hm, hpm⟩ := List.mem_filterMap.mp h2.1
        exact ⟨m, hm, hpm⟩
      · rintro ⟨m, hm, hpm⟩
        apply List.mem_filter.mpr
        refine ⟨List.mem_filterMap.mpr ⟨m, hm, hpm⟩, ?_⟩
        rw [List.elem_iff]
        exact List.mem_map.mpr ⟨n, hnI, rfl⟩
    by_cases hc : ((session.filterMap (fun n => n.parent_node_id)).filter
        (fun pid => ((session.filter (fun n =>
          links.any (fun l => l.node_id == n.id && l.step_id == step.id &&
            l.relationship_type == "input"))).map
              (fun n => n.id)).contains pid)).contains n.id = true
    · rw [if_pos hc] at hpn
      subst hpn
      rw [hkey] at hc
      exact ⟨by simpa using hc, by simp [hc]⟩
    · rw [if_neg hc] at hpn
      subst hpn
      rw [hkey] at hc
      exact ⟨by simp [hc], by simpa using hc⟩

/-- Witness for `input_nodes_tagging`: node 1 is an input of step 10
and node 2 derives from it, so node 1 is returned tagged
`"treated"`. -/
theorem input_nodes_tagging_witness :
    (Node.get_input_nodes_from_step
        [⟨1, none, false, "a"⟩, ⟨2, some 1, false, "b"⟩]
        [⟨1, 10, "input"⟩] ⟨10⟩).map Prod.fst =
      ([⟨1, none, false, "a"⟩, ⟨2, some 1, false, "b"⟩] : List Node).filter
        (fun n => ([⟨1, 10, "input"⟩] : List StepNode).any (fun l =>
          l.node_id == n.id && l.step_id == (10 : Int) &&
            l.relationship_type == "input")) ∧
    (((⟨1, none, false, "a"⟩, "treated") : Node × String).2 = "treated" ↔
      ∃ m ∈ ([⟨1, none, false, "a"⟩, ⟨2, some 1, false, "b"⟩] : List Node),
        m.parent_node_id =
          some ((⟨1, none, false, "a"⟩, "treated") : Node × String).1.id) :=
  ⟨(input_nodes_tagging
      [⟨1, none, false, "a"⟩, ⟨2, some 1, false, "b"⟩]
      [⟨1, 10, "input"⟩] ⟨10⟩).1,
    ((input_nodes_tagging
      [⟨1, none, false, "a"⟩, ⟨2, some 1, false, "b"⟩]
      [⟨1, 10, "input"⟩] ⟨10⟩).2
      (⟨1, none, false, "a"⟩, "treated") (by decide)).1⟩

end Synda
